import Mathlib

/-!
Shallow embedding of `autoTwitchDrops/miner.py` (class `TwitchMiner`) and
verification of the specified properties of its reconciliation, claiming,
channel-selection and watch-loop logic.

Conventions of the embedding:
* Python dictionaries coming from the platform API are modelled as Lean
  structures holding exactly the fields the miner reads.
* A Python value that may be `None` (or an absent key) is an `Option`;
  the miner's truthiness tests on such values become `Option.isSome`.
* The `PlatformAPI` collaborator is opaque: each of its query methods is a
  function parameter giving the response the server would return.
* Imperative in-place mutation of lists by index (`del xs[i]` in decreasing
  index order) is embedded literally via `List.eraseIdx` folds and related
  to `List.filter` by a proved lemma.
-/

namespace AutoTwitchDrops

/-- A game record as read by the miner: `game["id"]`, `game["displayName"]`,
`game["slug"]`. -/
structure Game where
  id : String
  displayName : String
  slug : String
deriving DecidableEq, Repr

/-- A drop as read by the miner: benefit ids, required/watched minutes,
claimed flag, and the instance id used for claiming. -/
structure Drop where
  id_ : String
  name : String
  benefits_ids : List String
  required_time : Nat
  watched_time : Nat
  claimed : Bool
  instanceId : String
deriving DecidableEq, Repr

/-- A campaign as read by the miner: game, `channelsEnabled` flag, the
explicit channel allow-list and the list of drops. -/
structure Campaign where
  id_ : String
  name : String
  game : Game
  channelsEnabled : Bool
  channels : List String
  drops : List Drop
deriving DecidableEq, Repr

/-- The part of the `get_inventory()` response the miner reads:
`dropCampaignsInProgress` (a possibly empty list of campaigns; the code's
truthiness test on the key yields the same empty list) and the ids of the
standalone `gameEventDrops` entries. -/
structure InventoryResponse where
  dropCampaignsInProgress : List Campaign
  gameEventDrops : List String
deriving DecidableEq, Repr

/-- `update_inventory` (miner.py lines 161-181): the satisfied-benefit set
`self.claimed_drops_ids` — for every inventory drop with
`drop.claimed or drop.required_time <= drop.watched_time`, all of its
benefit ids, followed by the ids of the `gameEventDrops` entries. -/
def claimed_drops_ids (inv : InventoryResponse) : List String :=
  (inv.dropCampaignsInProgress.flatMap fun c =>
    c.drops.flatMap fun d =>
      if d.claimed = true ∨ d.required_time ≤ d.watched_time then d.benefits_ids else [])
  ++ inv.gameEventDrops

/-- The indices (in increasing order) of the elements of `l` satisfying `p`:
the index lists collected by `update_campaigns` before deleting. -/
def idxsWhere (p : α → Bool) : List α → List Nat
  | [] => []
  | a :: t => (if p a then [0] else []) ++ (idxsWhere p t).map (· + 1)

/-- The `for j in sorted(indices, reverse=True): del xs[j]` pattern of
`update_campaigns`: delete every index satisfying `p`, in decreasing index
order (the collected indices are increasing, so `sorted(·, reverse=True)`
is their reverse). -/
def removeMarked (p : α → Bool) (l : List α) : List α :=
  ((idxsWhere p l).reverse).foldl (fun acc j => acc.eraseIdx j) l

/-- `update_campaigns` (miner.py lines 183-219), reconciliation step on the
hydrated campaign list: mark each drop one of whose benefit ids lies in
`claimed` (the `for benefit in drop.benefits_ids: ... break` loop), delete
the marked drops of each campaign in reverse index order, then delete the
campaigns left with zero drops (the `reversed(list(enumerate(...)))` loop;
the code's final `campaigns_to_remove` loop deletes nothing, the list is
never filled). -/
def update_campaigns (claimed : List String) (hydrated : List Campaign) :
    List Campaign :=
  let afterDrops := hydrated.map fun c =>
    { c with drops :=
        removeMarked (fun d => d.benefits_ids.any fun b => claimed.contains b) c.drops }
  removeMarked (fun c => c.drops.isEmpty) afterDrops

/-- The ids of the `status == "ACTIVE"` campaigns of the `get_campaigns()`
response (miner.py line 186). -/
def activeCampaignIds (resp : List (String × String)) : List String :=
  (resp.filter fun c => c.2 = "ACTIVE").map fun c => c.1

/-- Follows the spec's words (for comparison with `update_campaigns`): keep
in each campaign exactly the drops none of whose benefit ids is satisfied,
then keep exactly the campaigns that still have a drop. -/
def reconciledSpec (claimed : List String) (hydrated : List Campaign) :
    List Campaign :=
  (hydrated.map fun c =>
    { c with drops :=
        c.drops.filter fun d => !(d.benefits_ids.any fun b => claimed.contains b) }).filter
    fun c => !c.drops.isEmpty

/-- The fields of `TwitchMiner` written by `update_inventory` and
`update_campaigns`. -/
structure MinerState where
  inventory : List Campaign
  claimed_ids : List String
  campaigns : List Campaign
deriving DecidableEq, Repr

/-- One fixed server state: the `get_inventory()`, `get_campaigns()` and
`get_full_campaigns_data(ids)` responses (the last hydrates a list of
campaign ids; each entry's `x["user"]["dropCampaign"]` is a campaign). -/
structure ServerState where
  inventory : InventoryResponse
  campaigns : List (String × String)
  fullData : List String → List Campaign

/-- `update_inventory` as a state update: overwrite `self.inventory` and
`self.claimed_drops_ids` from the snapshot. -/
def update_inventory_st (srv : ServerState) (s : MinerState) : MinerState :=
  { s with
    inventory := srv.inventory.dropCampaignsInProgress
    claimed_ids := claimed_drops_ids srv.inventory }

/-- `update_campaigns` as a state update: overwrite `self.campaigns` with the
reconciled hydration of the active campaigns. -/
def update_campaigns_st (srv : ServerState) (s : MinerState) : MinerState :=
  { s with
    campaigns :=
      update_campaigns s.claimed_ids (srv.fullData (activeCampaignIds srv.campaigns)) }

/-- One reconciliation pass, as run at the top of `pick_streamer`:
`update_inventory` then `update_campaigns` against the same server state. -/
def reconcile (srv : ServerState) (s : MinerState) : MinerState :=
  update_campaigns_st srv (update_inventory_st srv s)

/-- The claim-eligibility test of `claim_all_drops` (miner.py line 224):
`drop.required_time <= drop.watched_time and drop.claimed is False`. -/
def claimEligible (d : Drop) : Bool :=
  decide (d.required_time ≤ d.watched_time ∧ d.claimed = false)

/-- The inner loop of `claim_all_drops` over one campaign's drops. `ok` tells
whether the `await self.api.claim_drop(instance_id)` call succeeds; a raising
call (the code has no try/except here) propagates and stops the iteration.
Returns the instance ids for which a claim call was issued, and whether the
loop finished without an exception. -/
def claimDrops (ok : String → Bool) : List Drop → List String × Bool
  | [] => ([], true)
  | d :: rest =>
    if claimEligible d then
      if ok d.instanceId then
        let r := claimDrops ok rest
        (d.instanceId :: r.1, r.2)
      else ([d.instanceId], false)
    else claimDrops ok rest

/-- `claim_all_drops` (miner.py lines 221-226): iterate the raw inventory
snapshot campaign by campaign; an exception from a claim call propagates out
of both loops. -/
def claim_all_drops (ok : String → Bool) : List Campaign → List String × Bool
  | [] => ([], true)
  | c :: rest =>
    let r := claimDrops ok c.drops
    if r.2 then
      let r2 := claim_all_drops ok rest
      (r.1 ++ r2.1, r2.2)
    else r

/-- The instance ids of the claim-eligible drops of a drop list, in order. -/
def eligibleDropIds (drops : List Drop) : List String :=
  (drops.filter claimEligible).map fun d => d.instanceId

/-- The instance ids of the claim-eligible drops of the whole inventory
snapshot, in iteration order. -/
def eligibleIds (inv : List Campaign) : List String :=
  inv.flatMap fun c => eligibleDropIds c.drops

/-- A channel as the miner uses it: id, login name, and the game it is
broadcasting. -/
structure Channel where
  id : String
  nickname : String
  game : Game
deriving DecidableEq, Repr

/-- One `get_channels_information` response entry, i.e. the
`channel["user"]` record: `stream` is the live-broadcast object (absent when
the channel is offline), `broadcastGame` is `broadcastSettings["game"]`. -/
structure UserInfo where
  id : String
  login : String
  stream : Option Unit
  broadcastGame : Option Game
deriving DecidableEq, Repr

/-- Modelled from the spec: the `Channel` entity constructor (the class is
imported from a module not under src/). Per the spec's data model a channel
is its identifier, login name and currently broadcast game; building one
from a `user` record needs the broadcast game. -/
def mkChannelFromUser (u : UserInfo) : Option Channel :=
  u.broadcastGame.map fun g => { id := u.id, nickname := u.login, game := g }

/-- `get_online_channels` (miner.py lines 156-159): keep the response entries
with a truthy `stream` and a truthy `broadcastSettings["game"]`, build
channels from them, then keep those whose game id equals the campaign's. -/
def get_online_channels (response : List UserInfo) (game_id : String) :
    List Channel :=
  ((response.filter fun u => u.stream.isSome && u.broadcastGame.isSome).filterMap
    mkChannelFromUser).filter fun x => x.game.id == game_id

/-- One `get_category_streamers` response entry, i.e. the `channel["node"]`
record: `broadcaster` is the broadcaster record (its login), absent on the
malformed/forbidden entries the API sometimes returns. -/
structure StreamerNode where
  id : String
  broadcaster : Option String
  game : Game
deriving DecidableEq, Repr

/-- Modelled from the spec: the `Channel` entity constructor applied to a
category-streamers `node` record (the class is imported from a module not
under src/); constructing a channel needs the node's broadcaster record, so
it fails on entries lacking one. -/
def mkChannelFromNode (n : StreamerNode) : Option Channel :=
  n.broadcaster.map fun login => { id := n.id, nickname := login, game := n.game }

/-- The dynamic-discovery branch of `get_channel_to_mine` (miner.py
line 148): `[Channel(channel["node"]) for channel in response if
channel["node"].get("broadcaster")]`. -/
def dynChannels (response : List StreamerNode) : List Channel :=
  (response.filter fun n => n.broadcaster.isSome).filterMap mkChannelFromNode

/-- The same comprehension with channel construction allowed to fail: `none`
models the comprehension raising on some entry, `some l` models it returning
the list `l` normally. -/
def dynChannelsRun (response : List StreamerNode) : Option (List Channel) :=
  (response.filter fun n => n.broadcaster.isSome).mapM mkChannelFromNode

/-- The game-filter skip of `get_channel_to_mine` (miner.py line 134):
`if self.game and self.game != campaign.game["displayName"]: continue`. -/
def skipByGameFilter (gfilter : Option String) (c : Campaign) : Bool :=
  match gfilter with
  | some g => g != c.game.displayName
  | none => false

/-- The per-campaign channel computation of the `get_channel_to_mine` loop
body: allow-list path through `get_online_channels`, else dynamic discovery.
`gci` and `gcs` are the `get_channels_information` and
`get_category_streamers` API responses. -/
def campaignChannels (gci : List String → List UserInfo)
    (gcs : String → List StreamerNode) (c : Campaign) : List Channel :=
  if c.channelsEnabled then get_online_channels (gci c.channels) c.game.id
  else dynChannels (gcs c.game.slug)

/-- `get_channel_to_mine` (miner.py lines 130-152): scan the ranked
campaigns in order; skip those the game filter excludes; otherwise compute
the campaign's channels and break on the first non-empty list. `acc` is the
`streamers` variable (initially `None`, overwritten — possibly with an empty
list — by every non-skipped campaign). -/
def get_channel_to_mine (gci : List String → List UserInfo)
    (gcs : String → List StreamerNode) (gfilter : Option String)
    (acc : Option (List Channel)) : List Campaign → Option (List Channel)
  | [] => acc
  | c :: rest =>
    if skipByGameFilter gfilter c then
      get_channel_to_mine gci gcs gfilter acc rest
    else
      let s := campaignChannels gci gcs c
      if s.isEmpty then get_channel_to_mine gci gcs gfilter (some s) rest
      else some s

/-- The retry loop of `pick_streamer` (miner.py lines 106-117): each entry of
the list is one attempt's `get_channel_to_mine` result; a falsy result
(`None` or the empty list) costs one `asyncio.sleep(60)` and the loop
retries; a truthy result breaks and `streamers[0]` is mined. Returns the
total seconds slept and the chosen channel, or `none` when every modelled
attempt failed. -/
def pick_streamer_retry : List (Option (List Channel)) → Option (Nat × Channel)
  | [] => none
  | r :: rest =>
    match r with
    | some (ch :: _) => some (0, ch)
    | _ =>
      match pick_streamer_retry rest with
      | some (n, ch) => some (n + 60, ch)
      | none => none

/-- The shared mining-session state read by `watch` and written by the
websocket listener and by `run`: `need_mine`, `current_game` (`None` until a
broadcast-settings update arrives) and the game id recorded for the watched
channel (`current_channel.game["id"]`, fixed when mining started on it). -/
structure MState where
  need_mine : Bool
  current_game : Option String
  channel_game : String
deriving DecidableEq, Repr

/-- The game-change test of `watch` (miner.py line 121):
`if self.current_game and self.current_game != self.current_channel.game["id"]`. -/
def gameChanged (s : MState) : Bool :=
  match s.current_game with
  | some g => g != s.channel_game
  | none => false

/-- Observable events of one `watch` call. -/
inductive WatchEv where
  | heartbeat
  | exitNormal
  | abortGame
deriving DecidableEq, Repr

/-- `watch` (miner.py lines 119-128) as a step-by-step run. Each loop
iteration: check `need_mine` (loop condition; on a false flag the loop ends
and `self.need_mine = True` runs), check the game change (raising
`RuntimeError` at once, before any further heartbeat), else send one
heartbeat and sleep 15s. `ups` are the listener's asynchronous writes to the
shared state, one applied during each sleep; the run stops unfinished when
the modelled writes are exhausted. Returns the event trace and the final
shared state. -/
def watchRun (ups : List (MState → MState)) (s : MState) :
    List WatchEv × MState :=
  if s.need_mine = false then ([WatchEv.exitNormal], { s with need_mine := true })
  else if gameChanged s then ([WatchEv.abortGame], s)
  else
    match ups with
    | [] => ([], s)
    | u :: rest =>
      let r := watchRun rest (u s)
      (WatchEv.heartbeat :: r.1, r.2)

/-- The two states of the outer `run` loop the claims mention. -/
inductive Phase where
  | SELECTING
  | WATCHING
deriving DecidableEq, Repr

/-- What `run` (miner.py lines 79-96) does after `watch` ends: a
`RuntimeError` (game change) is caught and `continue` re-enters the
selection at the loop top; a normal exit likewise reaches the next
iteration's `pick_streamer`; a heartbeat means the watch is still going. -/
def phaseAfter : WatchEv → Phase
  | WatchEv.heartbeat => Phase.WATCHING
  | WatchEv.exitNormal => Phase.SELECTING
  | WatchEv.abortGame => Phase.SELECTING

/-- The top of each `run` loop iteration (miner.py line 80):
`self.current_game = None` before picking a streamer. -/
def cycleStart (s : MState) : MState :=
  { s with current_game := none }

/-- The payloads of the websocket messages the listener inspects
(`json.loads(data["message"])`). -/
inductive WsMsg where
  | createNotification (ntype : String)
  | broadcastSettingsUpdate (game_id : String)
  | otherMsg
deriving DecidableEq, Repr

/-- One frame from `self.websocket.receive_message()`: its topic and its
`message` field (absent or empty frames carry `none`). -/
structure WsFrame where
  topic : String
  message : Option WsMsg
deriving DecidableEq, Repr

/-- What the listener body does with one frame: keep looping, or execute the
`return` statement that ends the `handle_websocket` task. -/
inductive HAction where
  | continueLoop
  | terminate
deriving DecidableEq, Repr

/-- One iteration of the `handle_websocket` loop body (miner.py lines
40-54) on a received frame: skip frames without a message; on the
`onsite-notifications.<user_id>` topic, a `create-notification` message sets
`need_mine` to `False` when its notification type is the drop reward
reminder and then executes `return`, ending the listener; on the
`broadcast-settings-update.<current_channel>` topic, a
`broadcast_settings_update` message overwrites `current_game`; anything else
falls through and the loop continues. -/
def handleFrame (userId current_channel : String) (s : MState) (f : WsFrame) :
    MState × HAction :=
  match f.message with
  | none => (s, HAction.continueLoop)
  | some m =>
    match m with
    | WsMsg.createNotification ntype =>
      if f.topic = "onsite-notifications." ++ userId then
        (if ntype = "user_drop_reward_reminder_notification"
          then ({ s with need_mine := false }, HAction.terminate)
          else (s, HAction.terminate))
      else (s, HAction.continueLoop)
    | WsMsg.broadcastSettingsUpdate g =>
      if f.topic = "broadcast-settings-update." ++ current_channel then
        ({ s with current_game := some g }, HAction.continueLoop)
      else (s, HAction.continueLoop)
    | WsMsg.otherMsg => (s, HAction.continueLoop)

/-- Does a frame carry a `broadcast_settings_update` payload? -/
def isBsuMsg : Option WsMsg → Bool
  | some (WsMsg.broadcastSettingsUpdate _) => true
  | _ => false

/-! Concrete sample data used to instantiate the theorems below. -/

def gameX : Game := { id := "g1", displayName := "GameX", slug := "gamex" }

def dropI1 : Drop :=
  { id_ := "d1", name := "DropOne", benefits_ids := ["bf1"], required_time := 10,
    watched_time := 10, claimed := false, instanceId := "i1" }

def dropI2 : Drop :=
  { id_ := "d2", name := "DropTwo", benefits_ids := ["bf2"], required_time := 10,
    watched_time := 12, claimed := false, instanceId := "i2" }

def campFail : Campaign :=
  { id_ := "camp1", name := "CampOne", game := gameX, channelsEnabled := false,
    channels := [], drops := [dropI1, dropI2] }

def dropB1 : Drop :=
  { id_ := "db", name := "DropB", benefits_ids := ["b1"], required_time := 30,
    watched_time := 0, claimed := false, instanceId := "ib" }

def campB : Campaign :=
  { id_ := "campB", name := "CampB", game := gameX, channelsEnabled := false,
    channels := [], drops := [dropB1] }

def srvW : ServerState :=
  { inventory := { dropCampaignsInProgress := [], gameEventDrops := [] }
    campaigns := [("campB", "ACTIVE")]
    fullData := fun _ => [campB] }

def stW : MinerState := { inventory := [], claimed_ids := [], campaigns := [] }

def userW : UserInfo :=
  { id := "u1", login := "log1", stream := some (), broadcastGame := some gameX }

def chW : Channel := { id := "u1", nickname := "log1", game := gameX }

def campW : Campaign :=
  { id_ := "campW", name := "CampW", game := gameX, channelsEnabled := true,
    channels := ["u1"], drops := [dropB1] }

def gciW : List String → List UserInfo := fun _ => [userW]

def gcsW : String → List StreamerNode := fun _ => []

def mW : MState := { need_mine := true, current_game := some "g2", channel_game := "g1" }

def frameNotif : WsFrame :=
  { topic := "onsite-notifications.u1"
    message := some (WsMsg.createNotification "user_drop_reward_reminder_notification") }

/-! Helper lemmas. -/

/-- Folding `eraseIdx` over successor indices leaves the head untouched. -/
theorem foldl_eraseIdx_map_succ (js : List Nat) (a : α) (t : List α) :
    (js.map (· + 1)).foldl (fun acc j => acc.eraseIdx j) (a :: t) =
      a :: js.foldl (fun acc j => acc.eraseIdx j) t := by
  induction js generalizing t with
  | nil => rfl
  | cons j js ih =>
    simp only [List.map_cons, List.foldl_cons, List.eraseIdx_cons_succ]
    exact ih _

/-- Deleting, in decreasing index order, every index whose element satisfies
`p` is the same as filtering `p` out. -/
theorem removeMarked_eq_filter (p : α → Bool) (l : List α) :
    removeMarked p l = l.filter fun a => !p a := by
  induction l with
  | nil => rfl
  | cons a t ih =>
    unfold removeMarked idxsWhere
    rw [List.reverse_append, ← List.map_reverse, List.foldl_append,
      foldl_eraseIdx_map_succ]
    rw [show (idxsWhere p t).reverse.foldl (fun acc j => acc.eraseIdx j) t
        = removeMarked p t from rfl, ih]
    by_cases hp : p a
    · simp [hp]
    · simp [hp]

/-- The literal index-deletion reconciliation equals the immutable
filter-rebuild reconciliation. -/
theorem update_campaigns_eq_reconciledSpec (claimed : List String)
    (hydrated : List Campaign) :
    update_campaigns claimed hydrated = reconciledSpec claimed hydrated := by
  unfold update_campaigns reconciledSpec
  simp only [removeMarked_eq_filter]

/-- C1: for every inventory snapshot and hydrated active-campaign list, the
reconciled campaign set keeps a drop iff none of its benefit ids lies in the
satisfied-benefit set of that snapshot (so a drop is removed iff at least
one of its benefit ids is satisfied), and a campaign is kept iff a drop of
it survives; and the satisfied-benefit set holds exactly the benefit ids of
the snapshot drops with `claimed == true` or `watched_time >= required_time`
together with the standalone game-event-drop ids. -/
theorem reconcile_removal_iff (inv : InventoryResponse) (hydrated : List Campaign) :
    update_campaigns (claimed_drops_ids inv) hydrated
      = reconciledSpec (claimed_drops_ids inv) hydrated
    ∧ ∀ b : String, b ∈ claimed_drops_ids inv ↔
        ((∃ c ∈ inv.dropCampaignsInProgress, ∃ d ∈ c.drops,
            (d.claimed = true ∨ d.required_time ≤ d.watched_time) ∧ b ∈ d.benefits_ids)
          ∨ b ∈ inv.gameEventDrops) := by
  refine ⟨update_campaigns_eq_reconciledSpec _ _, fun b => ?_⟩
  simp [claimed_drops_ids, List.mem_flatMap, List.mem_ite_nil_right]

/-- C2: against one fixed server state, running the reconciliation pass
(`update_inventory` then `update_campaigns`) twice leaves the miner state of
one run unchanged; and a drop of a hydrated campaign none of whose benefit
ids lies in the snapshot's satisfied set survives reconciliation, inside a
surviving campaign with its id. -/
theorem reconcile_idempotent_no_over_removal (srv : ServerState) (s : MinerState)
    (c : Campaign) (d : Drop)
    (hc : c ∈ srv.fullData (activeCampaignIds srv.campaigns))
    (hd : d ∈ c.drops)
    (hb : ∀ b ∈ d.benefits_ids, b ∉ claimed_drops_ids srv.inventory) :
    reconcile srv (reconcile srv s) = reconcile srv s
    ∧ ∃ c' ∈ (reconcile srv s).campaigns, c'.id_ = c.id_ ∧ d ∈ c'.drops := by
  constructor
  · simp [reconcile, update_campaigns_st, update_inventory_st]
  · have hcamp : (reconcile srv s).campaigns
        = reconciledSpec (claimed_drops_ids srv.inventory)
            (srv.fullData (activeCampaignIds srv.campaigns)) := by
      simp [reconcile, update_campaigns_st, update_inventory_st,
        update_campaigns_eq_reconciledSpec]
    refine ⟨{ c with drops := c.drops.filter fun d =>
        !(d.benefits_ids.any fun b => (claimed_drops_ids srv.inventory).contains b) },
      ?_, rfl, ?_⟩
    · rw [hcamp]
      unfold reconciledSpec
      have hdmem : d ∈ c.drops.filter fun d =>
          !(d.benefits_ids.any fun b => (claimed_drops_ids srv.inventory).contains b) := by
        rw [List.mem_filter]
        refine ⟨hd, ?_⟩
        simp only [Bool.not_eq_true', List.any_eq_false]
        intro b hbmem
        simpa [List.elem_iff] using hb b hbmem
      rw [List.mem_filter]
      constructor
      · exact List.mem_map_of_mem _ hc
      · simp only [Bool.not_eq_true', List.isEmpty_eq_false_iff_exists_mem]
        exact ⟨d, hdmem⟩
    · rw [List.mem_filter]
      refine ⟨hd, ?_⟩
      simp only [Bool.not_eq_true', List.any_eq_false]
      intro b hbmem
      simpa [List.elem_iff] using hb b hbmem

/-- Witness for C2 at a concrete server state: one active campaign whose
single drop has no satisfied benefit. -/
theorem reconcile_idempotent_no_over_removal_witness :
    reconcile srvW (reconcile srvW stW) = reconcile srvW stW
    ∧ ∃ c' ∈ (reconcile srvW stW).campaigns, c'.id_ = campB.id_ ∧ dropB1 ∈ c'.drops :=
  reconcile_idempotent_no_over_removal srvW stW campB dropB1 (by decide) (by decide)
    (by decide)

/-- Eligibility of a cons at the drop level. -/
theorem eligibleDropIds_cons (d : Drop) (rest : List Drop) :
    eligibleDropIds (d :: rest)
      = if claimEligible d then d.instanceId :: eligibleDropIds rest
        else eligibleDropIds rest := by
  by_cases h : claimEligible d <;> simp [eligibleDropIds, List.filter_cons, h]

/-- When every eligible claim call succeeds, the inner claim loop issues
exactly the eligible instance ids, in order, and finishes. -/
theorem claimDrops_all_ok (ok : String → Bool) (drops : List Drop)
    (h : ∀ i ∈ eligibleDropIds drops, ok i = true) :
    claimDrops ok drops = (eligibleDropIds drops, true) := by
  induction drops with
  | nil => rfl
  | cons d rest ih =>
    rw [eligibleDropIds_cons] at h ⊢
    by_cases he : claimEligible d
    · simp only [he, if_true] at h ⊢
      have hok : ok d.instanceId = true := h _ (List.mem_cons_self _ _)
      rw [claimDrops]
      simp only [he, if_true, hok]
      rw [ih fun i hi => h i (List.mem_cons_of_mem _ hi)]
    · simp only [he, if_false] at h ⊢
      rw [claimDrops]
      simp only [he, if_false]
      exact ih h

/-- The calls the inner claim loop issues always form a prefix of the
eligible instance ids, the whole of them when the loop finishes. -/
theorem claimDrops_calls (ok : String → Bool) (drops : List Drop) :
    ∃ t, eligibleDropIds drops = (claimDrops ok drops).1 ++ t
      ∧ ((claimDrops ok drops).2 = true → t = []) := by
  induction drops with
  | nil => exact ⟨[], rfl, fun _ => rfl⟩
  | cons d rest ih =>
    obtain ⟨t, ht, himp⟩ := ih
    rw [eligibleDropIds_cons]
    by_cases he : claimEligible d
    · by_cases hok : ok d.instanceId
      · refine ⟨t, ?_, ?_⟩
        · rw [claimDrops]
          simp only [he, if_true, hok]
          simpa using ht
        · rw [claimDrops]
          simp only [he, if_true, hok]
          simpa using himp
      · refine ⟨eligibleDropIds rest, ?_, ?_⟩
        · rw [claimDrops]
          simp only [he, if_true, hok, Bool.false_eq_true, if_false]
          rfl
        · rw [claimDrops]
          simp only [he, if_true, hok, Bool.false_eq_true, if_false]
          intro hcontra
          exact absurd hcontra (by simp)
    · rw [claimDrops]
      simp only [he, if_false]
      exact ⟨t, ht, himp⟩

/-- C3 as it stands is false on the code (see the counterexample): this is
the amended claim. The claim trigger issues exactly one claim call per raw
inventory drop with `watched_time >= required_time` and `claimed == false`,
in iteration order, provided no claim call fails; in general the issued
calls form a prefix of the eligible drops, because a failing claim call
raises and aborts all remaining claims. -/
theorem claim_all_drops_calls (ok : String → Bool) (inv : List Campaign) :
    ((∀ i ∈ eligibleIds inv, ok i = true) → (claim_all_drops ok inv).1 = eligibleIds inv)
    ∧ ∃ t, eligibleIds inv = (claim_all_drops ok inv).1 ++ t := by
  induction inv with
  | nil => exact ⟨fun _ => rfl, [], rfl⟩
  | cons c rest ih =>
    obtain ⟨ihok, tR, htR⟩ := ih
    have helig : eligibleIds (c :: rest) = eligibleDropIds c.drops ++ eligibleIds rest := by
      simp [eligibleIds]
    constructor
    · intro hall
      rw [helig] at hall
      have h1 : ∀ i ∈ eligibleDropIds c.drops, ok i = true := fun i hi =>
        hall i (List.mem_append_left _ hi)
      have h2 : ∀ i ∈ eligibleIds rest, ok i = true := fun i hi =>
        hall i (List.mem_append_right _ hi)
      rw [claim_all_drops]
      rw [claimDrops_all_ok ok c.drops h1]
      simp only [if_true]
      rw [helig, ihok h2]
    · obtain ⟨tC, htC, himpC⟩ := claimDrops_calls ok c.drops
      rw [claim_all_drops]
      by_cases hfin : (claimDrops ok c.drops).2
      · refine ⟨tR, ?_⟩
        rw [helig, htC, himpC hfin]
        simp only [hfin, if_true, List.append_nil, htR, List.append_assoc]
      · refine ⟨tC ++ eligibleIds rest, ?_⟩
        simp only [hfin, Bool.false_eq_true, if_false]
        rw [helig, htC, List.append_assoc]

/-- Witness for the amended C3: with every claim call succeeding, the calls
are exactly the eligible instance ids. -/
theorem claim_all_drops_calls_witness :
    (claim_all_drops (fun _ => true) [campFail]).1 = eligibleIds [campFail]
    ∧ ∃ t, eligibleIds [campFail] = (claim_all_drops (fun _ => true) [campFail]).1 ++ t :=
  ⟨(claim_all_drops_calls (fun _ => true) [campFail]).1 (fun _ _ => rfl),
    (claim_all_drops_calls (fun _ => true) [campFail]).2⟩

/-- Counterexample to C3 as stated: both drops of `campFail` are eligible
(`eligibleIds` lists both instance ids), yet when the first claim call
fails, the code issues no call for the second eligible drop — one failing
claim does block the remaining claims. -/
theorem claim_all_drops_not_resilient :
    claim_all_drops (fun _ => false) [campFail] = (["i1"], false)
    ∧ eligibleIds [campFail] = ["i1", "i2"] := by decide

/-- C4: with `channelsEnabled`, when the `get_channels_information` response
reports only channels of the queried allow-list (the API contract), every
channel `get_online_channels` returns has its id in the allow-list, comes
from a response entry that is live (truthy `stream`), and broadcasts exactly
the campaign's game id. -/
theorem get_online_channels_sound (response : List UserInfo) (gid : String)
    (allow : List String) (hresp : ∀ u ∈ response, u.id ∈ allow) :
    ∀ ch ∈ get_online_channels response gid,
      ch.id ∈ allow ∧ ch.game.id = gid
      ∧ ∃ u ∈ response, u.stream.isSome ∧ mkChannelFromUser u = some ch := by
  intro ch hch
  unfold get_online_channels at hch
  rw [List.mem_filter] at hch
  obtain ⟨hmem, hgame⟩ := hch
  rw [List.mem_filterMap] at hmem
  obtain ⟨u, humem, hu⟩ := hmem
  rw [List.mem_filter] at humem
  obtain ⟨huresp, hlive⟩ := humem
  rw [Bool.and_eq_true] at hlive
  have hid : ch.id = u.id := by
    unfold mkChannelFromUser at hu
    cases hbg : u.broadcastGame with
    | none => rw [hbg] at hu; exact absurd hu (by simp)
    | some g =>
      rw [hbg] at hu
      simp only [Option.map_some'] at hu
      rw [← Option.some_inj.mp hu]
  refine ⟨hid ▸ hresp u huresp, ?_, u, huresp, hlive.1, hu⟩
  simpa using hgame

/-- Witness for C4 at a concrete allow-list and response. -/
theorem get_online_channels_sound_witness :
    chW.id ∈ ["u1"] ∧ chW.game.id = "g1"
    ∧ ∃ u ∈ [userW], u.stream.isSome ∧ mkChannelFromUser u = some chW :=
  get_online_channels_sound [userW] "g1" ["u1"] (by decide) chW (by decide)

/-- Mapping an option-valued function that succeeds on every element of a
list collects exactly the `filterMap` image. -/
theorem mapM_eq_some_filterMap (f : α → Option β) (l : List α)
    (h : ∀ a ∈ l, (f a).isSome) : l.mapM f = some (l.filterMap f) := by
  induction l with
  | nil => rfl
  | cons a t ih =>
    have ha : (f a).isSome := h a (List.mem_cons_self _ _)
    obtain ⟨b, hb⟩ := Option.isSome_iff_exists.mp ha
    rw [List.mapM_cons, ih fun x hx => h x (List.mem_cons_of_mem _ hx)]
    simp [hb, List.filterMap_cons]

/-- C9: on every category-streamers response, the dynamic-discovery
comprehension returns normally (entries lacking a broadcaster record are
filtered out before channel construction, so construction never fails), and
its result consists exactly of the channels built from the entries that do
have a broadcaster record. -/
theorem dynamic_discovery_filtering (response : List StreamerNode) :
    dynChannelsRun response = some (dynChannels response)
    ∧ ∀ ch : Channel, ch ∈ dynChannels response ↔
        ∃ n ∈ response, n.broadcaster.isSome ∧ mkChannelFromNode n = some ch := by
  constructor
  · unfold dynChannelsRun dynChannels
    refine mapM_eq_some_filterMap _ _ fun n hn => ?_
    rw [List.mem_filter] at hn
    unfold mkChannelFromNode
    obtain ⟨login, hlogin⟩ := Option.isSome_iff_exists.mp hn.2
    simp [hlogin]
  · intro ch
    unfold dynChannels
    rw [List.mem_filterMap]
    constructor
    · rintro ⟨n, hn, hmk⟩
      rw [List.mem_filter] at hn
      exact ⟨n, hn.1, hn.2, hmk⟩
    · rintro ⟨n, hn, hbc, hmk⟩
      exact ⟨n, List.mem_filter.mpr ⟨hn, hbc⟩, hmk⟩

/-- C5: when mining is still wanted and the observed game id has been set to
a value different from the game recorded when mining started on the channel,
the watch loop raises at its very next check — the event trace is just the
abort, with no heartbeat (hence no heartbeat sleep) before it — and `run`
turns the `RuntimeError` into re-entering selection. -/
theorem watch_aborts_on_game_change (ups : List (MState → MState)) (s : MState)
    (g : String) (hm : s.need_mine = true) (hg : s.current_game = some g)
    (hne : g ≠ s.channel_game) :
    watchRun ups s = ([WatchEv.abortGame], s)
    ∧ WatchEv.heartbeat ∉ (watchRun ups s).1
    ∧ phaseAfter WatchEv.abortGame = Phase.SELECTING := by
  have hgc : gameChanged s = true := by
    unfold gameChanged
    rw [hg]
    simpa using hne
  have hrun : watchRun ups s = ([WatchEv.abortGame], s) := by
    rw [watchRun.eq_def]
    simp [hm, hgc]
  exact ⟨hrun, by rw [hrun]; simp, rfl⟩

/-- Witness for C5: observed game `"g2"` differs from the recorded `"g1"`. -/
theorem watch_aborts_on_game_change_witness :
    watchRun [] mW = ([WatchEv.abortGame], mW)
    ∧ WatchEv.heartbeat ∉ (watchRun [] mW).1
    ∧ phaseAfter WatchEv.abortGame = Phase.SELECTING :=
  watch_aborts_on_game_change [] mW "g2" rfl rfl (by decide)

/-- C6: when the needs-mine flag goes false during a heartbeat sleep (the
asynchronous write `u`), the watch loop exits at its next flag check — one
heartbeat was already in flight, none follows — and the flag is reset to
true for the next mining session; the loop then re-enters selection. -/
theorem watch_exits_within_one_period (s : MState) (u : MState → MState)
    (rest : List (MState → MState)) (hm : s.need_mine = true)
    (hgc : gameChanged s = false) (hu : (u s).need_mine = false) :
    watchRun (u :: rest) s
      = ([WatchEv.heartbeat, WatchEv.exitNormal], { u s with need_mine := true })
    ∧ (watchRun (u :: rest) s).2.need_mine = true
    ∧ phaseAfter WatchEv.exitNormal = Phase.SELECTING := by
  have hrun : watchRun (u :: rest) s
      = ([WatchEv.heartbeat, WatchEv.exitNormal], { u s with need_mine := true }) := by
    rw [watchRun.eq_def]
    simp only [hm, hgc, Bool.true_eq_false, if_false]
    rw [watchRun.eq_def]
    simp [hu]
  exact ⟨hrun, by rw [hrun], rfl⟩

/-- Witness for C6: the listener clears the flag during the first sleep. -/
theorem watch_exits_within_one_period_witness :
    watchRun [fun t => { t with need_mine := false }]
        { need_mine := true, current_game := none, channel_game := "g1" }
      = ([WatchEv.heartbeat, WatchEv.exitNormal],
          { need_mine := true, current_game := none, channel_game := "g1" })
    ∧ (watchRun [fun t => { t with need_mine := false }]
        { need_mine := true, current_game := none, channel_game := "g1" }).2.need_mine = true
    ∧ phaseAfter WatchEv.exitNormal = Phase.SELECTING :=
  watch_exits_within_one_period
    { need_mine := true, current_game := none, channel_game := "g1" }
    (fun t => { t with need_mine := false }) [] rfl rfl rfl

/-- C7 is right about the intended design and the code contradicts it: on
receiving a `create-notification` frame on the onsite-notifications topic,
`handle_websocket` executes `return` — the listener task ends for good
instead of looping for the session lifetime (here evaluated at the drop
reward reminder itself, which also clears the needs-mine flag on the way
out). -/
theorem handle_websocket_returns_on_notification :
    handleFrame "u1" "chan1"
        { need_mine := true, current_game := none, channel_game := "g1" } frameNotif
      = ({ need_mine := false, current_game := none, channel_game := "g1" },
          HAction.terminate) := by decide

/-- The selector loop returns the channel list of the first non-skipped,
non-empty campaign, whatever the accumulated `streamers` value was. -/
theorem gctm_first_nonempty (gci : List String → List UserInfo)
    (gcs : String → List StreamerNode) (gfilter : Option String)
    (post : List Campaign) (c : Campaign) (ch : Channel) (chs : List Channel)
    (h2 : skipByGameFilter gfilter c = false)
    (h3 : campaignChannels gci gcs c = ch :: chs) :
    ∀ pre : List Campaign,
      (∀ c' ∈ pre, skipByGameFilter gfilter c' = true ∨ campaignChannels gci gcs c' = []) →
      ∀ acc, get_channel_to_mine gci gcs gfilter acc (pre ++ c :: post) = some (ch :: chs) := by
  intro pre
  induction pre with
  | nil =>
    intro _ acc
    rw [List.nil_append, get_channel_to_mine]
    simp [h2, h3]
  | cons c' pre' ih =>
    intro h1 acc
    rw [List.cons_append, get_channel_to_mine]
    by_cases hskip : skipByGameFilter gfilter c' = true
    · simp only [hskip, if_true]
      exact ih (fun x hx => h1 x (List.mem_cons_of_mem _ hx)) acc
    · have hempty : campaignChannels gci gcs c' = [] := by
        rcases h1 c' (List.mem_cons_self _ _) with h | h
        · exact absurd h hskip
        · exact h
      simp only [hskip, if_false, hempty, List.isEmpty_nil, if_true]
      exact ih (fun x hx => h1 x (List.mem_cons_of_mem _ hx)) (some [])

/-- Each failed attempt costs one fixed 60-second sleep; the retry loop
returns the head channel of the first truthy attempt. -/
theorem pick_streamer_retry_backoff (ch : Channel) (chs : List Channel)
    (others : List (Option (List Channel))) :
    ∀ fails : List (Option (List Channel)),
      (∀ r ∈ fails, r = none ∨ r = some []) →
      pick_streamer_retry (fails ++ (some (ch :: chs)) :: others)
        = some (fails.length * 60, ch) := by
  intro fails
  induction fails with
  | nil =>
    intro _
    rw [List.nil_append, pick_streamer_retry]
    simp
  | cons r fails' ih =>
    intro h4
    have ih' := ih fun x hx => h4 x (List.mem_cons_of_mem _ hx)
    rcases h4 r (List.mem_cons_self _ _) with hr | hr
    · subst hr
      rw [List.cons_append,
        show pick_streamer_retry (none :: (fails' ++ (some (ch :: chs)) :: others))
          = (match pick_streamer_retry (fails' ++ (some (ch :: chs)) :: others) with
             | some (n, c) => some (n + 60, c)
             | none => none) from rfl, ih']
      simp [Nat.succ_mul]
    · subst hr
      rw [List.cons_append,
        show pick_streamer_retry ((some []) :: (fails' ++ (some (ch :: chs)) :: others))
          = (match pick_streamer_retry (fails' ++ (some (ch :: chs)) :: others) with
             | some (n, c) => some (n + 60, c)
             | none => none) from rfl, ih']
      simp [Nat.succ_mul]

/-- C8: scanning the ranked campaign list, when every campaign before `c` is
either skipped by the game filter or yields no channel, `c` is not skipped
and its channel list is `ch :: chs`, the selector returns that list whatever
the accumulated `streamers` value was (the caller then mines its first
channel `ch`); and the `pick_streamer` retry loop, after any run of failed
attempts, returns `ch` having slept a fixed 60 seconds per failed attempt. -/
theorem selector_first_yielding (gci : List String → List UserInfo)
    (gcs : String → List StreamerNode) (gfilter : Option String)
    (pre post : List Campaign) (c : Campaign) (ch : Channel) (chs : List Channel)
    (fails others : List (Option (List Channel)))
    (h1 : ∀ c' ∈ pre, skipByGameFilter gfilter c' = true ∨ campaignChannels gci gcs c' = [])
    (h2 : skipByGameFilter gfilter c = false)
    (h3 : campaignChannels gci gcs c = ch :: chs)
    (h4 : ∀ r ∈ fails, r = none ∨ r = some []) :
    (∀ acc, get_channel_to_mine gci gcs gfilter acc (pre ++ c :: post) = some (ch :: chs))
    ∧ pick_streamer_retry (fails ++ (some (ch :: chs)) :: others)
        = some (fails.length * 60, ch) :=
  ⟨gctm_first_nonempty gci gcs gfilter post c ch chs h2 h3 pre h1,
    pick_streamer_retry_backoff ch chs others fails h4⟩

/-- Witness for C8: one allow-list campaign with one live on-game channel,
reached after a single failed attempt (one 60-second sleep). -/
theorem selector_first_yielding_witness :
    (∀ acc, get_channel_to_mine gciW gcsW none acc [campW] = some [chW])
    ∧ pick_streamer_retry [none, some [chW]] = some (60, chW) :=
  selector_first_yielding gciW gcsW none [] [] campW chW [] [none] []
    (by simp) (by decide) (by decide) (by decide)

/-- Only a `broadcast_settings_update` payload can change `current_game`. -/
theorem handleFrame_preserves_current_game (uid ch : String) (t : MState)
    (f : WsFrame) (h : isBsuMsg f.message = false) :
    ((handleFrame uid ch t f).1).current_game = t.current_game := by
  cases hm : f.message with
  | none => simp [handleFrame, hm]
  | some m =>
    cases m with
    | createNotification nt =>
      simp only [handleFrame, hm]
      by_cases ht : f.topic = "onsite-notifications." ++ uid
      · simp only [ht, if_true]
        by_cases hn : nt = "user_drop_reward_reminder_notification" <;> simp [hn]
      · simp [ht]
    | broadcastSettingsUpdate g =>
      rw [hm] at h
      exact absurd h (by simp [isBsuMsg])
    | otherMsg => simp [handleFrame, hm]

/-- While `current_game` stays `none` and every asynchronous update keeps it
`none`, the watch loop never raises for a game change. -/
theorem watchRun_no_abort (ups : List (MState → MState)) (s : MState)
    (hs : s.current_game = none)
    (hups : ∀ u ∈ ups, ∀ t : MState, t.current_game = none → (u t).current_game = none) :
    WatchEv.abortGame ∉ (watchRun ups s).1 := by
  induction ups generalizing s with
  | nil =>
    rw [watchRun.eq_def]
    by_cases hm : s.need_mine = false
    · simp [hm]
    · have hgc : gameChanged s = false := by simp [gameChanged, hs]
      simp [hm, hgc]
  | cons u rest ih =>
    rw [watchRun.eq_def]
    by_cases hm : s.need_mine = false
    · simp [hm]
    · have hgc : gameChanged s = false := by simp [gameChanged, hs]
      simp only [hm, hgc, Bool.false_eq_true, if_false]
      intro hmem
      rcases List.mem_cons.mp hmem with habs | hmem2
      · exact absurd habs (by simp)
      · exact ih (u s) (hups u (List.mem_cons_self _ _) s hs)
          (fun v hv => hups v (List.mem_cons_of_mem _ hv)) hmem2

/-- C10: `run` resets the observed game id to `None` at the top of every
selection cycle, and the watch loop treats an absent observed game as no
change; so as long as the listener has processed no
`broadcast_settings_update` frame, the watch loop never aborts for a game
change, whatever game the channel actually broadcasts. -/
theorem no_abort_before_first_bsu (uid ch : String) (s : MState)
    (frames : List WsFrame)
    (h : ∀ f ∈ frames, isBsuMsg f.message = false) :
    WatchEv.abortGame ∉
      (watchRun (frames.map fun f t => (handleFrame uid ch t f).1) (cycleStart s)).1 := by
  apply watchRun_no_abort
  · rfl
  · intro u hu t ht
    rw [List.mem_map] at hu
    obtain ⟨f, hf, rfl⟩ := hu
    rw [handleFrame_preserves_current_game uid ch t f (h f hf)]
    exact ht

/-- Witness for C10: one non-broadcast frame arrives, the channel broadcasts
a game other than the recorded one, and still no abort occurs. -/
theorem no_abort_before_first_bsu_witness :
    WatchEv.abortGame ∉
      (watchRun ([frameNotif].map fun f t => (handleFrame "u1" "c1" t f).1)
        (cycleStart mW)).1 :=
  no_abort_before_first_bsu "u1" "c1" mW [frameNotif] (by decide)

end AutoTwitchDrops
